import Mathlib

/-!
Verification of the Epstein civil-violence model with a small-world
censorship network, embedded from `src/epstein_civil_violence/agent.py`
and `src/epstein_civil_violence/model.py`.

The embedding keeps the source structure: agent snapshots are records,
the influence network is an explicit edge list carrying per-edge censor
countdowns, and each Python method becomes a Lean function over those
records.  Randomness is made explicit: every place the Python code draws
from `self.random` takes the drawn value as an argument.
-/

namespace EpsteinCV

/-- Citizen condition, the string field `condition` in `agent.py`
(`"Quiescent"` / `"Active"`). -/
inductive Condition
  | Quiescent
  | Active
deriving DecidableEq, Repr

/-- Agent breed tag, the string field `breed` (`"citizen"` / `"cop"`). -/
inductive Breed
  | citizen
  | cop
deriving DecidableEq, Repr

/-- Snapshot of an agent as read by another agent or by the metrics
aggregator: the fields of `mesa.Agent` subclasses consulted by
`update_neighbors` consumers, `Cop.step` and the model-level counters. -/
structure AgentView where
  breed : Breed
  condition : Condition
  jailSentence : ℕ
  strongTiesReceived : ℕ := 0
  weakTiesReceived : ℕ := 0
deriving DecidableEq, Repr

/-- An undirected influence-network edge together with its
`censor_steps` attribute (`model.py` line 167 initialises it to 0). -/
structure NetEdge where
  u : ℕ
  v : ℕ
  censorSteps : ℕ
deriving DecidableEq, Repr

/-- The influence network `model.G`: an edge list.  `networkx` graphs
have no parallel edges and no self-loops (Watts–Strogatz output), which
theorems assume where they need it. -/
abbrev Net := List NetEdge

/-- Neighbors of node `a` in graph `G` (`networkx` adjacency, a set of
nodes, hence the `dedup`). -/
def nbrs (G : Net) (a : ℕ) : List ℕ :=
  (G.filterMap fun e =>
    if e.u = a then some e.v else if e.v = a then some e.u else none).dedup

/-- Nodes at hop distance ≤ 2 from `a`: the node set of
`nx.ego_graph(G, a, radius=2)`. -/
def reach2 (G : Net) (a : ℕ) : List ℕ :=
  (a :: (nbrs G a ++ (List.map (nbrs G) (nbrs G a)).flatten)).dedup

/-- Edges of the subgraph induced on node list `ns` (the edge set of an
`nx.ego_graph` result). -/
def inducedEdges (G : Net) (ns : List ℕ) : Net :=
  G.filter fun e => decide (e.u ∈ ns) && decide (e.v ∈ ns)

/-- Drop the censored edges: `agent.py` lines 126-130 collect every edge
with `censor_steps > 0` into `ebunch` and remove them. -/
def pruneCensored (G : Net) : Net :=
  G.filter fun e => e.censorSteps == 0

/-- Result of `Citizen.prepare_ego`: the pruned two-hop ego network and
the id sets `degree_1_neighbors` / `degree_2_neighbors`. -/
structure Ego where
  net : Net
  deg1 : List ℕ
  deg2 : List ℕ
deriving DecidableEq, Repr

/-- `Citizen.prepare_ego` (`agent.py` lines 124-135): take the two-hop
ego graph, remove censored edges, re-expand the two-hop ego graph from
the pruned graph; one-hop neighbors are `degree_1_neighbors`, the
remaining ego nodes (including the citizen itself) are
`degree_2_neighbors`. -/
def prepareEgo (G : Net) (uid : ℕ) : Ego :=
  let ego1 := inducedEdges G (reach2 G uid)
  let ego1p := pruneCensored ego1
  let nodes2 := reach2 ego1p uid
  let ego2 := inducedEdges ego1p nodes2
  let deg1 := nbrs ego2 uid
  let deg2 := nodes2.filter fun x => !(decide (x ∈ deg1))
  ⟨ego2, deg1, deg2⟩

/-- `Citizen.get_agents_by_ids` (`agent.py` lines 121-122): look each id
up in `model.agent_dict`, skipping ids that are not present. -/
def getAgentsByIds (dict : List (ℕ × AgentView)) (ids : List ℕ) :
    List AgentView :=
  ids.filterMap fun i => (dict.find? fun p => p.1 == i).map Prod.snd

/-- Edges of `G` incident to `uid`, as returned by
`self.ego_network.edges(self.unique_id)`. -/
def incidentEdges (G : Net) (uid : ℕ) : Net :=
  G.filter fun e => (e.u == uid) || (e.v == uid)

/-- The canonicalised pending-censorship contribution of one Active
citizen (`agent.py` lines 92-96): each incident ego-network edge as the
pair `(u, v) if u < v else (v, u)`. -/
def pendingOf (G : Net) (uid : ℕ) : List (ℕ × ℕ) :=
  (incidentEdges G uid).map fun e => if e.u < e.v then (e.u, e.v) else (e.v, e.u)

/-! ## Edge censor countdown over ticks

`EpsteinCivilViolence.step` (`model.py` lines 175-197) first decrements
every positive `censor_steps` (lines 181-183), then runs all agents
(`self.schedule.step()`, line 185), and only then resolves the
pending-censorship set, setting `censor_steps = self.t_censor` on the
successfully drawn edges (lines 191-195).  So during the tick in which
an edge is censored the agents still read `censor_steps = 0`. -/

/-- The per-tick decay applied to one edge's `censor_steps`
(`model.py` lines 181-183). -/
def decayStep (c : ℕ) : ℕ :=
  if 0 < c then c - 1 else c

/-- The `censor_steps` value the agents of tick `T + k` read for an edge
whose countdown is set to `D` by the censorship resolution at the end of
tick `T`: during tick `T` itself (`k = 0`) the countdown is still the
pre-resolution value 0 (resolution only draws edges currently at 0,
line 192); each later tick applies one decay before the agents run. -/
def readCountdown (D : ℕ) : ℕ → ℕ
  | 0 => 0
  | k + 1 => decayStep^[k + 1] D

theorem decayStep_iterate (D : ℕ) : ∀ k : ℕ, decayStep^[k] D = D - k := by
  intro k
  induction k with
  | zero => simp
  | succ n ih =>
      rw [Function.iterate_succ_apply', ih, decayStep]
      rcases Nat.lt_or_ge 0 (D - n) with h | h
      · rw [if_pos h]
        omega
      · rw [if_neg (by omega)]
        omega

/-! ## Arrest-probability estimation (`agent.py` lines 151-210) -/

/-- The filter of the spatial-neighbor loop (`agent.py` lines 160-166 and
196-204): a non-jailed Active citizen. -/
def activeFreeCitizenB (c : AgentView) : Bool :=
  decide (c.breed = Breed.citizen) && decide (c.condition = Condition.Active)
    && decide (c.jailSentence = 0)

/-- The filter of the strong-tie and weak-tie loops (`agent.py` lines 168-182):
a non-jailed Active agent (tie lists only ever hold citizens, so no breed
test appears in the source either). -/
def activeFreeB (c : AgentView) : Bool :=
  decide (c.condition = Condition.Active) && decide (c.jailSentence = 0)

/-- `len([c for c in self.neighbors if c.breed == "cop"])`. -/
def countCops (neighbors : List AgentView) : ℕ :=
  (neighbors.filter fun c => decide (c.breed = Breed.cop)).length

/-- The shared arrest-probability formula
(`agent.py` lines 185-189 and 206-210):
`1 - exp(-1 * arrest_prob_constant * floor(cops_in_vision / actives_in_vision))`. -/
noncomputable def arrestProb (k : ℝ) (cops : ℕ) (actives : ℝ) : ℝ :=
  1 - Real.exp (-1 * k * (⌊(cops : ℝ) / actives⌋ : ℤ))

/-- A counter loop `for c in l: if p(c): x += 1` starting from 0. -/
def tieCounter (p : AgentView → Bool) (l : List AgentView) : ℕ :=
  l.foldl (fun acc c => if p c then acc + 1 else acc) 0

/-- Output of `Citizen.update_network_arrest_probability`. -/
structure NetProbOut where
  activesInVision : ℝ
  strongTies : ℕ
  weakTies : ℕ
  arrestProbability : ℝ

/-- `Citizen.update_network_arrest_probability` (`agent.py` lines
151-189): start `actives_in_vision` at 1.0 (the citizen herself), add 1
per non-jailed Active spatial citizen neighbor, `strong_weak_ratio` per
non-jailed Active degree-1 neighbor, and 1 per non-jailed Active
degree-2 neighbor, counting strong/weak tie receivals alongside; then
apply the arrest-probability formula. -/
noncomputable def updateNetworkArrestProbability (k swr : ℝ)
    (neighbors d1 d2 : List AgentView) : NetProbOut :=
  let a1 : ℝ :=
    neighbors.foldl (fun acc c => if activeFreeCitizenB c then acc + 1 else acc) 1
  let a2 : ℝ := d1.foldl (fun acc c => if activeFreeB c then acc + swr else acc) a1
  let a3 : ℝ := d2.foldl (fun acc c => if activeFreeB c then acc + 1 else acc) a2
  { activesInVision := a3
    strongTies := tieCounter activeFreeB d1
    weakTies := tieCounter activeFreeB d2
    arrestProbability := arrestProb k (countCops neighbors) a3 }

/-- `Citizen.update_estimated_arrest_probability` (`agent.py` lines
191-210), the mode without the network: returns
`(actives_in_vision, arrest_probability)`. -/
noncomputable def updateEstimatedArrestProbability (k : ℝ)
    (neighbors : List AgentView) : ℝ × ℝ :=
  let a : ℝ :=
    neighbors.foldl (fun acc c => if activeFreeCitizenB c then acc + 1 else acc) 1
  (a, arrestProb k (countCops neighbors) a)

/-! ### Helper lemmas about the accumulation loops -/

theorem foldl_add_if {α : Type} (p : α → Bool) (w : ℝ) :
    ∀ (l : List α) (init : ℝ),
      List.foldl (fun acc c => if p c then acc + w else acc) init l
        = init + w * ((l.filter p).length : ℕ) := by
  intro l
  induction l with
  | nil => intro init; simp
  | cons a l ih =>
      intro init
      by_cases h : p a
      · simp [List.foldl, h, List.filter, ih]
        ring
      · simp [List.foldl, h, List.filter, ih]

/-! ## Citizen and Cop activation (`agent.py` lines 75-119 and 240-261) -/

/-- `model.activation_types = ["With SWN", "Without SWN"]`. -/
inductive ActivationType
  | withSWN
  | withoutSWN
deriving DecidableEq, Repr

/-- The shared model configuration fields a citizen or cop activation
reads. -/
structure ModelParams where
  arrestProbConstant : ℝ
  strongWeakRatio : ℝ
  activationType : ActivationType
  movement : Bool

/-- The mutable state of a `Citizen` agent. -/
structure CitizenState where
  uniqueId : ℕ
  pos : ℕ × ℕ
  hardship : ℝ
  regimeLegitimacy : ℝ
  riskAversion : ℝ
  threshold : ℝ
  condition : Condition
  jailSentence : ℕ
  grievance : ℝ
  arrestProbability : Option ℝ
  strongTiesReceived : ℕ
  weakTiesReceived : ℕ

/-- `Citizen.__init__` (`agent.py` lines 33-73): Quiescent, jail
sentence 0, `grievance = hardship * (1 - regime_legitimacy)`, arrest
probability `None`, tie counters 0. -/
def Citizen.init (uid : ℕ) (pos : ℕ × ℕ)
    (hardship legit risk threshold : ℝ) : CitizenState :=
  { uniqueId := uid
    pos := pos
    hardship := hardship
    regimeLegitimacy := legit
    riskAversion := risk
    threshold := threshold
    condition := Condition.Quiescent
    jailSentence := 0
    grievance := hardship * (1 - legit)
    arrestProbability := none
    strongTiesReceived := 0
    weakTiesReceived := 0 }

/-- The movement rule shared by citizens and cops (`agent.py` lines
104-106, 117-119, 259-261): if movement is enabled and an empty
neighboring cell exists, relocate to the one the random stream picks
(the drawn index `mc` is the explicit random choice). -/
def moveIfAble (movement : Bool) (emptyNeighbors : List (ℕ × ℕ)) (mc : ℕ)
    (pos : ℕ × ℕ) : ℕ × ℕ :=
  if movement && !emptyNeighbors.isEmpty then
    (emptyNeighbors[mc % emptyNeighbors.length]?).getD pos
  else pos

/-- `Citizen.step` (`agent.py` lines 75-119).  A jailed citizen only
decrements its sentence and returns.  Otherwise, in `"With SWN"` mode it
prepares the pruned ego network, estimates the arrest probability from
spatial neighbors plus network ties, and — if already Active — adds every
incident ego-network edge, canonicalised, to the pending-censorship set
(the second component of the result); the Quiescent→Active transition is
tested after that, and movement last.  In `"Without SWN"` mode only the
spatial estimate and the transition run.  `mc` is the random movement
choice. -/
noncomputable def Citizen.step (p : ModelParams) (G : Net)
    (dict : List (ℕ × AgentView)) (neighbors : List AgentView)
    (emptyNeighbors : List (ℕ × ℕ)) (mc : ℕ) (s : CitizenState) :
    CitizenState × List (ℕ × ℕ) :=
  if s.jailSentence ≠ 0 then
    ({ s with jailSentence := s.jailSentence - 1 }, [])
  else
    match p.activationType with
    | ActivationType.withSWN =>
        let ego := prepareEgo G s.uniqueId
        let d1 := getAgentsByIds dict ego.deg1
        let d2 := getAgentsByIds dict ego.deg2
        let o := updateNetworkArrestProbability p.arrestProbConstant
          p.strongWeakRatio neighbors d1 d2
        let netRisk := s.riskAversion * o.arrestProbability
        let pending :=
          if s.condition = Condition.Active then pendingOf ego.net s.uniqueId
          else []
        let cond' :=
          if s.condition = Condition.Quiescent ∧
              s.grievance - netRisk > s.threshold then Condition.Active
          else s.condition
        ({ s with condition := cond'
                  pos := moveIfAble p.movement emptyNeighbors mc s.pos
                  arrestProbability := some o.arrestProbability
                  strongTiesReceived := o.strongTies
                  weakTiesReceived := o.weakTies }, pending)
    | ActivationType.withoutSWN =>
        let o := updateEstimatedArrestProbability p.arrestProbConstant neighbors
        let netRisk := s.riskAversion * o.2
        let cond' :=
          if s.condition = Condition.Quiescent ∧
              s.grievance - netRisk > s.threshold then Condition.Active
          else s.condition
        ({ s with condition := cond'
                  pos := moveIfAble p.movement emptyNeighbors mc s.pos
                  arrestProbability := some o.2 }, [])

/-- The arrest-candidate list a cop builds (`agent.py` lines 246-253):
non-jailed Active citizens among its spatial neighbors. -/
def activeNeighborsOf (neighbors : List AgentView) : List AgentView :=
  neighbors.filter activeFreeCitizenB

/-- `Cop.step` (`agent.py` lines 240-261): pick one arrest candidate
uniformly (explicit random index `choice`), give it the drawn jail
`sentence` and set it Quiescent; then move.  Returns the arrestee's
updated snapshot, if any, and the cop's new position. -/
def Cop.step (movement : Bool) (neighbors : List AgentView)
    (emptyNeighbors : List (ℕ × ℕ)) (choice sentence mc : ℕ)
    (pos : ℕ × ℕ) : Option AgentView × (ℕ × ℕ) :=
  let cands := activeNeighborsOf neighbors
  let arrested := (cands[choice % cands.length]?).map fun a =>
    { a with jailSentence := sentence, condition := Condition.Quiescent }
  (arrested, moveIfAble movement emptyNeighbors mc pos)

/-- The update `Citizen.step` applies to `jail_sentence` in one tick
when no arrest intervenes (`agent.py` lines 79-81: decrement when
jailed, otherwise untouched). -/
def tickJail (j : ℕ) : ℕ :=
  if j ≠ 0 then j - 1 else j

/-! ## Metrics aggregator (`model.py` lines 215-339) -/

/-- `EpsteinCivilViolence.count_jailed` (`model.py` lines 230-239). -/
def count_jailed (agents : List AgentView) : ℕ :=
  (agents.filter fun a =>
    decide (a.breed = Breed.citizen) && decide (0 < a.jailSentence)).length

/-- The accumulation loop of `get_average_jail_term` (`model.py` lines
300-303): total of the jail sentences of currently jailed citizens. -/
def totalJailTerm (agents : List AgentView) : ℕ :=
  agents.foldl
    (fun acc a =>
      if decide (a.breed = Breed.citizen) && decide (0 < a.jailSentence) then
        acc + a.jailSentence
      else acc) 0

/-- `EpsteinCivilViolence.get_average_jail_term` (`model.py` lines
295-307): totals the live jail sentences but divides by the *stored*
counter `model.jail_count`, guarded against that stored counter being
zero. -/
def get_average_jail_term (agents : List AgentView) (jailCountField : ℕ) : ℚ :=
  if jailCountField = 0 then 0
  else (totalJailTerm agents : ℚ) / (jailCountField : ℚ)

/-- The value the data collector reports for a tick.  In
`EpsteinCivilViolence.step` the collection (`model.py` line 200) runs
before the counter update `self.jail_count = self.count_jailed(self)`
(line 204), so the reporter reads the agents as they stand after this
tick but the `jail_count` stored at the end of the *previous* tick
(`model.py` line 94 initialises it to 0). -/
def reportedAverageJailTerm (agentsNow agentsPrev : List AgentView) : ℚ :=
  get_average_jail_term agentsNow (count_jailed agentsPrev)

/-- The mean jail term as the spec's words define it: sum of current
jail countdowns over currently jailed citizens divided by their number,
0 when none is jailed.  Stated only to compare against
`get_average_jail_term`. -/
def claimedMeanJailTerm (agents : List AgentView) : ℚ :=
  if count_jailed agents = 0 then 0
  else (totalJailTerm agents : ℚ) / (count_jailed agents : ℚ)

/-- `EpsteinCivilViolence.get_average_strong_ties_receival` (`model.py`
lines 309-323): totals `strong_ties_received` over non-jailed citizens
and counts them; returns 0 when the total is 0, otherwise divides by the
count.  `none` models the `ZeroDivisionError` Python would raise if the
division were reached with count 0. -/
def get_average_strong_ties_receival (agents : List AgentView) : Option ℚ :=
  let total : ℕ := agents.foldl
    (fun acc a =>
      if decide (a.breed = Breed.citizen) && decide (a.jailSentence = 0) then
        acc + a.strongTiesReceived
      else acc) 0
  let count := (agents.filter fun a =>
    decide (a.breed = Breed.citizen) && decide (a.jailSentence = 0)).length
  if total = 0 then some 0
  else if count = 0 then none
  else some ((total : ℚ) / (count : ℚ))

/-- `EpsteinCivilViolence.get_average_weak_ties_receival` (`model.py`
lines 325-339), identical shape over `weak_ties_received`. -/
def get_average_weak_ties_receival (agents : List AgentView) : Option ℚ :=
  let total : ℕ := agents.foldl
    (fun acc a =>
      if decide (a.breed = Breed.citizen) && decide (a.jailSentence = 0) then
        acc + a.weakTiesReceived
      else acc) 0
  let count := (agents.filter fun a =>
    decide (a.breed = Breed.citizen) && decide (a.jailSentence = 0)).length
  if total = 0 then some 0
  else if count = 0 then none
  else some ((total : ℚ) / (count : ℚ))

/-- `EpsteinCivilViolence.get_active_link_ratio` (`model.py` lines
287-289): `model.active_links / model.number_of_edges`, with no guard —
`none` models the `ZeroDivisionError` raised when the network has zero
edges. -/
def get_active_link_ratio (activeLinks numberOfEdges : ℕ) : Option ℚ :=
  if numberOfEdges = 0 then none
  else some ((activeLinks : ℚ) / (numberOfEdges : ℚ))

/-! ## Construction checks (`model.py` lines 44-173) -/

/-- The density validation in `EpsteinCivilViolence.__init__`
(`model.py` lines 137-138): `ValueError` exactly when
`cop_density + citizen_density > 1`. -/
def densityCheckRaises (copDensity citizenDensity : ℚ) : Bool :=
  decide (1 < copDensity + citizenDensity)

/-- Modelled from the documented behavior of the external generator
`networkx.generators.random_graphs.watts_strogatz_graph(n, k, p)`
called at `model.py` line 165: it raises `NetworkXError` iff `k > n`
(for `k = n` it returns the complete graph on `n` nodes). -/
def wattsStrogatzAccepts (n k : ℕ) : Bool :=
  decide (k ≤ n)

/-- Whether `EpsteinCivilViolence.__init__` gets past the influence
network construction (`model.py` lines 164-168): the Watts–Strogatz
graph over the placed citizens is built unconditionally — the
`activation_type` toggle is never consulted there — so construction
succeeds at this stage iff the generator accepts
`(len(list_citizen_ids), lattice_neighbor)`. -/
def modelBuildsGraph (a : ActivationType) (nCitizens latticeNeighbor : ℕ) :
    Bool :=
  match a with
  | ActivationType.withSWN => wattsStrogatzAccepts nCitizens latticeNeighbor
  | ActivationType.withoutSWN => wattsStrogatzAccepts nCitizens latticeNeighbor

/-! ## Helper lemmas about the graph embedding -/

theorem mem_nbrs_of_left {G : Net} {e : NetEdge} {a : ℕ} (he : e ∈ G)
    (hu : e.u = a) : e.v ∈ nbrs G a := by
  unfold nbrs
  rw [List.mem_dedup, List.mem_filterMap]
  exact ⟨e, he, by simp [hu]⟩

theorem exists_edge_of_mem_nbrs {G : Net} {a b : ℕ} (h : b ∈ nbrs G a) :
    ∃ e ∈ G, (e.u = a ∧ e.v = b) ∨ (e.v = a ∧ e.u = b) := by
  unfold nbrs at h
  rw [List.mem_dedup, List.mem_filterMap] at h
  obtain ⟨e, he, hf⟩ := h
  refine ⟨e, he, ?_⟩
  by_cases h1 : e.u = a
  · simp [h1] at hf
    exact Or.inl ⟨h1, hf⟩
  · simp [h1] at hf
    by_cases h2 : e.v = a
    · simp [h2] at hf
      exact Or.inr ⟨h2, hf⟩
    · simp [h2] at hf

theorem self_mem_reach2 (G : Net) (a : ℕ) : a ∈ reach2 G a := by
  unfold reach2
  rw [List.mem_dedup]
  exact List.mem_cons_self a _

theorem nbr_mem_reach2 {G : Net} {a b : ℕ} (h : b ∈ nbrs G a) :
    b ∈ reach2 G a := by
  unfold reach2
  rw [List.mem_dedup]
  exact List.mem_cons_of_mem a (List.mem_append_left _ h)

theorem mem_of_mem_inducedEdges {G : Net} {ns : List ℕ} {e : NetEdge}
    (h : e ∈ inducedEdges G ns) : e ∈ G := by
  unfold inducedEdges at h
  exact (List.mem_filter.mp h).1

theorem mem_inducedEdges {G : Net} {ns : List ℕ} {e : NetEdge}
    (he : e ∈ G) (hu : e.u ∈ ns) (hv : e.v ∈ ns) : e ∈ inducedEdges G ns := by
  unfold inducedEdges
  rw [List.mem_filter]
  exact ⟨he, by simp [hu, hv]⟩

theorem mem_pruneCensored {G : Net} {e : NetEdge} :
    e ∈ pruneCensored G ↔ e ∈ G ∧ e.censorSteps = 0 := by
  unfold pruneCensored
  rw [List.mem_filter]
  simp

/-- Every edge of the network `prepare_ego` returns is an edge of the
underlying model network with censor countdown 0. -/
theorem mem_prepareEgo_net {G : Net} {uid : ℕ} {e : NetEdge}
    (h : e ∈ (prepareEgo G uid).net) : e ∈ G ∧ e.censorSteps = 0 := by
  unfold prepareEgo at h
  simp only at h
  have h1 := mem_of_mem_inducedEdges h
  rw [mem_pruneCensored] at h1
  exact ⟨mem_of_mem_inducedEdges h1.1, h1.2⟩

/-- A non-censored edge of the model network incident to the citizen
survives both ego-graph passes: its far endpoint is a degree-1
(strong-tie) neighbor. -/
theorem mem_deg1_of_incident {G : Net} {uid : ℕ} {e : NetEdge}
    (he : e ∈ G) (hc : e.censorSteps = 0) (hu : e.u = uid) :
    e.v ∈ (prepareEgo G uid).deg1 := by
  subst hu
  have hv1 : e.v ∈ nbrs G e.u := mem_nbrs_of_left he rfl
  have he1 : e ∈ inducedEdges G (reach2 G e.u) :=
    mem_inducedEdges he (self_mem_reach2 G e.u) (nbr_mem_reach2 hv1)
  have he1p : e ∈ pruneCensored (inducedEdges G (reach2 G e.u)) :=
    mem_pruneCensored.mpr ⟨he1, hc⟩
  have hv2 : e.v ∈ nbrs (pruneCensored (inducedEdges G (reach2 G e.u))) e.u :=
    mem_nbrs_of_left he1p rfl
  have he2 : e ∈ (prepareEgo G e.u).net := by
    unfold prepareEgo
    simp only
    exact mem_inducedEdges he1p (self_mem_reach2 _ e.u) (nbr_mem_reach2 hv2)
  unfold prepareEgo
  simp only
  unfold prepareEgo at he2
  simp only at he2
  exact mem_nbrs_of_left he2 rfl

/-- In a network without self-loops the citizen's own id always lands in
`degree_2_neighbors`: it is an ego node but not one of its own
neighbors. -/
theorem self_mem_deg2 {G : Net} {uid : ℕ} (hG : ∀ e ∈ G, e.u ≠ e.v) :
    uid ∈ (prepareEgo G uid).deg2 := by
  unfold prepareEgo
  simp only
  rw [List.mem_filter]
  refine ⟨self_mem_reach2 _ uid, ?_⟩
  simp only [Bool.not_eq_true', decide_eq_false_iff_not]
  intro hmem
  obtain ⟨e, he, hcase⟩ := exists_edge_of_mem_nbrs hmem
  have heG : e ∈ G ∧ e.censorSteps = 0 := by
    have h1 := mem_of_mem_inducedEdges he
    rw [mem_pruneCensored] at h1
    exact ⟨mem_of_mem_inducedEdges h1.1, h1.2⟩
  rcases hcase with ⟨h1, h2⟩ | ⟨h1, h2⟩
  · exact hG e heG.1 (by rw [h1, h2])
  · exact hG e heG.1 (by rw [h1, h2])

/-! ## Helper lemmas about accumulation loops over ℕ -/

theorem foldl_add_vals {α : Type} (p : α → Bool) (v : α → ℕ) :
    ∀ (l : List α) (init : ℕ),
      List.foldl (fun acc a => if p a then acc + v a else acc) init l
        = init + ((l.filter p).map v).sum := by
  intro l
  induction l with
  | nil => intro init; simp
  | cons a l ih =>
      intro init
      by_cases h : p a
      · simp [List.foldl, h, List.filter, ih]
        ring
      · simp [List.foldl, h, List.filter, ih]

theorem filter_ne_nil_of_foldl_ne_zero {α : Type} (p : α → Bool) (v : α → ℕ)
    (l : List α)
    (h : List.foldl (fun acc a => if p a then acc + v a else acc) 0 l ≠ 0) :
    (l.filter p).length ≠ 0 := by
  intro hlen
  apply h
  rw [foldl_add_vals p v l 0]
  rw [List.length_eq_zero] at hlen
  simp [hlen]

/-! ## Claims -/

/-- C2: the spec demands that construction fail for
`cop_density + citizen_density ≥ 1`, including the boundary sum of
exactly 1.0, and the code's own error message says "must be less than
1"; but the check at `model.py` line 137 is the strict `> 1`, so the
boundary configuration `cop_density = citizen_density = 0.5` passes the
density check and construction proceeds.  (The sum 0.5 + 0.5 is exact in
binary floating point, so ℚ models the comparison faithfully.) -/
theorem C2_density_boundary_passes :
    densityCheckRaises (1 / 2) (1 / 2) = false := by
  unfold densityCheckRaises
  rw [decide_eq_false_iff_not]
  norm_num

/-- C3 counterexample: the claim says an edge censored by the resolution
of tick `T` is excluded from every ego view of tick `T` itself, but the
resolution (`model.py` lines 191-195) runs only after all agents have
stepped: during tick `T` the edge still carries the countdown 0 it is
required to have to be drawn (line 192), so the tie is still visible —
here edge (0,1), read with countdown 0 at the censor tick
(`readCountdown 5 0 = 0`), still contributes node 1 to citizen 0's
strong ties. -/
theorem C3_counterexample :
    readCountdown 5 0 = 0 ∧
      (1 : ℕ) ∈ (prepareEgo [⟨0, 1, 0⟩] 0).deg1 := by
  decide

/-- C3 amended: an edge set to countdown `D` by the resolution of tick
`T` is still visible during tick `T` itself (agents read countdown 0),
is excluded from ego views during ticks `T+1 … T+D-1`, and is first
visible again during tick `T + D` — i.e. restoration after exactly
`censor_duration` ticks holds, exclusion at the censor tick itself does
not.  The last two conjuncts tie the countdown to `prepare_ego`: a
positive countdown keeps an edge out of the pruned ego network, and a
zero-countdown incident edge shows up as a strong tie. -/
theorem C3_amended (D k : ℕ) (G : Net) (n : ℕ) (e : NetEdge) :
    readCountdown D 0 = 0
    ∧ (1 ≤ k → k < D → readCountdown D k ≠ 0)
    ∧ (D ≤ k → readCountdown D k = 0)
    ∧ (e ∈ (prepareEgo G n).net → e.censorSteps = 0)
    ∧ (e ∈ G → e.censorSteps = 0 → e.u = n → e.v ∈ (prepareEgo G n).deg1) := by
  refine ⟨rfl, ?_, ?_, fun h => (mem_prepareEgo_net h).2,
    fun h1 h2 h3 => mem_deg1_of_incident h1 h2 h3⟩
  · intro h1 h2
    match k, h1 with
    | j + 1, _ =>
        show decayStep^[j + 1] D ≠ 0
        rw [decayStep_iterate]
        omega
  · intro h1
    match k with
    | 0 =>
        have : D = 0 := Nat.le_zero.mp h1
        simp [this, readCountdown]
    | j + 1 =>
        show decayStep^[j + 1] D = 0
        rw [decayStep_iterate]
        omega

/-- C3 witness: with the default `censor_duration = 5`, at the second
tick after censoring the countdown the agents read is still positive, so
the edge stays excluded. -/
theorem C3_witness : 1 ≤ 2 ∧ 2 < 5 ∧ readCountdown 5 2 ≠ 0 :=
  ⟨by decide, by decide,
    (C3_amended 5 2 [] 0 ⟨0, 0, 0⟩).2.1 (by decide) (by decide)⟩

/-- C8 counterexample: the claim says every per-tick aggregate whose
denominator is a population or edge count returns 0 when that
denominator is zero, but `get_active_link_ratio` (`model.py` line 289)
divides by `model.number_of_edges` with no guard: on a network with zero
edges (e.g. `lattice_neighbor ≤ 1`) it raises `ZeroDivisionError`
(modelled as `none`) instead of returning 0. -/
theorem C8_counterexample : get_active_link_ratio 0 0 ≠ some 0 := by
  decide

/-- C8 amended: the jail-term and tie-receival averages are total and
return 0 on an empty denominator (the receival guards test the total,
which is 0 whenever the non-jailed-citizen count is 0), and the
pending-edge ratio is total on every network with at least one edge; but
with zero edges the ratio raises (`none`) rather than returning 0. -/
theorem C8_amended (agents : List AgentView) (activeLinks numberOfEdges : ℕ) :
    (get_average_strong_ties_receival agents).isSome = true
    ∧ (get_average_weak_ties_receival agents).isSome = true
    ∧ ((agents.filter fun a =>
          decide (a.breed = Breed.citizen) && decide (a.jailSentence = 0)).length = 0 →
        get_average_strong_ties_receival agents = some 0
          ∧ get_average_weak_ties_receival agents = some 0)
    ∧ get_average_jail_term agents 0 = 0
    ∧ (numberOfEdges ≠ 0 → (get_active_link_ratio activeLinks numberOfEdges).isSome = true)
    ∧ get_active_link_ratio activeLinks 0 = none := by
  refine ⟨?_, ?_, ?_, rfl, ?_, rfl⟩
  · unfold get_average_strong_ties_receival
    simp only
    split
    · rfl
    · next htot =>
        rw [if_neg (filter_ne_nil_of_foldl_ne_zero _ _ agents htot)]
        rfl
  · unfold get_average_weak_ties_receival
    simp only
    split
    · rfl
    · next htot =>
        rw [if_neg (filter_ne_nil_of_foldl_ne_zero _ _ agents htot)]
        rfl
  · intro hcount
    constructor
    · unfold get_average_strong_ties_receival
      simp only
      rw [if_pos]
      rw [foldl_add_vals _ _ agents 0, List.length_eq_zero.mp hcount]
      simp
    · unfold get_average_weak_ties_receival
      simp only
      rw [if_pos]
      rw [foldl_add_vals _ _ agents 0, List.length_eq_zero.mp hcount]
      simp
  · intro h
    unfold get_active_link_ratio
    rw [if_neg h]
    rfl

/-- C8 witness: on a concrete population with one non-jailed citizen
and a six-edge network the receival averages are defined and the ratio
of three pending links is defined. -/
theorem C8_witness :
    (6 : ℕ) ≠ 0 ∧ (get_active_link_ratio 3 6).isSome = true :=
  ⟨by decide, (C8_amended [⟨Breed.citizen, Condition.Quiescent, 0, 2, 1⟩] 3 6).2.2.2.2.1 (by decide)⟩

/-- C10 counterexample: the claim requires the citizen count to be
strictly greater than `lattice_neighbor` for construction to succeed,
but `watts_strogatz_graph` only rejects `k > n` (for `k = n` it returns
the complete graph), so 4 citizens with `lattice_neighbor = 4` construct
fine. -/
theorem C10_counterexample :
    modelBuildsGraph ActivationType.withoutSWN 4 4 = true ∧ ¬ (4 > 4) := by
  decide

/-- C10 amended: the influence network is built at construction
regardless of the "With SWN" / "Without SWN" toggle, and that build
succeeds iff `lattice_neighbor ≤` the number of placed citizens (the
generator rejects exactly `lattice_neighbor >` citizens — an undocumented
failure mode beyond the density checks; the claim's strict bound is off
by one at equality). -/
theorem C10_amended (a b : ActivationType) (n k : ℕ) :
    modelBuildsGraph a n k = modelBuildsGraph b n k
    ∧ (modelBuildsGraph a n k = true ↔ k ≤ n) := by
  cases a <;> cases b <;>
    simp [modelBuildsGraph, wattsStrogatzAccepts]

/-- C10 witness: two citizens with `lattice_neighbor = 1` pass the
generator in "With SWN" mode. -/
theorem C10_witness : modelBuildsGraph ActivationType.withSWN 2 1 = true :=
  (C10_amended ActivationType.withSWN ActivationType.withoutSWN 2 1).2.mpr
    (by decide)

/-! ## Helper lemmas about the arrest-probability estimator -/

theorem arrestProb_eq (k : ℝ) (cops : ℕ) (a : ℝ) :
    arrestProb k cops a = 1 - Real.exp (-(k * (⌊(cops : ℝ) / a⌋ : ℤ))) := by
  unfold arrestProb
  rw [show (-1 * k * ((⌊(cops : ℝ) / a⌋ : ℤ) : ℝ))
      = -(k * ((⌊(cops : ℝ) / a⌋ : ℤ) : ℝ)) by ring]

theorem arrestProb_nonneg {k a : ℝ} (cops : ℕ) (hk : 0 ≤ k) (ha : 1 ≤ a) :
    0 ≤ arrestProb k cops a := by
  unfold arrestProb
  have hfl : (0 : ℤ) ≤ ⌊(cops : ℝ) / a⌋ :=
    Int.floor_nonneg.mpr (div_nonneg (Nat.cast_nonneg cops) (by linarith))
  have hflR : (0 : ℝ) ≤ ((⌊(cops : ℝ) / a⌋ : ℤ) : ℝ) := by exact_mod_cast hfl
  have hx : -1 * k * ((⌊(cops : ℝ) / a⌋ : ℤ) : ℝ) ≤ 0 := by nlinarith
  have := Real.exp_le_one_iff.mpr hx
  linarith

theorem arrestProb_le_one (k : ℝ) (cops : ℕ) (a : ℝ) :
    arrestProb k cops a ≤ 1 := by
  unfold arrestProb
  have := Real.exp_pos (-1 * k * ((⌊(cops : ℝ) / a⌋ : ℤ) : ℝ))
  linarith

theorem arrestProb_cops_zero (k a : ℝ) : arrestProb k 0 a = 0 := by
  simp [arrestProb]

theorem arrestProb_tendsto_one {k : ℝ} (hk : 0 < k) :
    Filter.Tendsto (fun n : ℕ => arrestProb k n 1) Filter.atTop (nhds 1) := by
  have hfun : ∀ n : ℕ, arrestProb k n 1 = 1 - Real.exp (-k) ^ n := by
    intro n
    unfold arrestProb
    rw [div_one, Int.floor_natCast]
    push_cast
    rw [show -1 * k * (n : ℝ) = (n : ℝ) * -k by ring, Real.exp_nat_mul]
  simp only [hfun]
  have h0 : 0 ≤ Real.exp (-k) := (Real.exp_pos _).le
  have h1 : Real.exp (-k) < 1 := Real.exp_lt_one_iff.mpr (by linarith)
  have h2 := (tendsto_pow_atTop_nhds_zero_of_lt_one h0 h1).const_sub 1
  simpa using h2

theorem updateNetwork_actives_eq (k swr : ℝ) (nb d1 d2 : List AgentView) :
    (updateNetworkArrestProbability k swr nb d1 d2).activesInVision
      = 1 + ((nb.filter activeFreeCitizenB).length : ℝ)
          + swr * ((d1.filter activeFreeB).length : ℝ)
          + ((d2.filter activeFreeB).length : ℝ) := by
  unfold updateNetworkArrestProbability
  simp only
  rw [foldl_add_if, foldl_add_if, foldl_add_if]
  ring

theorem updateEstimated_actives_eq (k : ℝ) (nb : List AgentView) :
    (updateEstimatedArrestProbability k nb).1
      = 1 + ((nb.filter activeFreeCitizenB).length : ℝ) := by
  unfold updateEstimatedArrestProbability
  simp only
  rw [foldl_add_if]
  ring

theorem updateNetwork_actives_ge_one {k swr : ℝ} {nb d1 d2 : List AgentView}
    (hswr : 0 ≤ swr) :
    1 ≤ (updateNetworkArrestProbability k swr nb d1 d2).activesInVision := by
  rw [updateNetwork_actives_eq]
  have h1 : (0 : ℝ) ≤ ((nb.filter activeFreeCitizenB).length : ℝ) :=
    Nat.cast_nonneg _
  have h2 : (0 : ℝ) ≤ swr * ((d1.filter activeFreeB).length : ℝ) :=
    mul_nonneg hswr (Nat.cast_nonneg _)
  have h3 : (0 : ℝ) ≤ ((d2.filter activeFreeB).length : ℝ) := Nat.cast_nonneg _
  linarith

theorem updateEstimated_actives_ge_one (k : ℝ) (nb : List AgentView) :
    1 ≤ (updateEstimatedArrestProbability k nb).1 := by
  rw [updateEstimated_actives_eq]
  have h1 : (0 : ℝ) ≤ ((nb.filter activeFreeCitizenB).length : ℝ) :=
    Nat.cast_nonneg _
  linarith

theorem updateNetwork_prob_def (k swr : ℝ) (nb d1 d2 : List AgentView) :
    (updateNetworkArrestProbability k swr nb d1 d2).arrestProbability
      = arrestProb k (countCops nb)
          (updateNetworkArrestProbability k swr nb d1 d2).activesInVision := rfl

theorem updateEstimated_prob_def (k : ℝ) (nb : List AgentView) :
    (updateEstimatedArrestProbability k nb).2
      = arrestProb k (countCops nb) (updateEstimatedArrestProbability k nb).1 := rfl

/-- C5: in both activation modes the computed arrest probability is
exactly `1 - exp(-arrest_constant * floor(cops_in_vision /
actives_in_vision))`; it always lies in [0,1] (for a nonnegative arrest
constant and a nonnegative strong-weak ratio, the denominator starting
at 1.0 for the citizen herself); with zero cops in vision it is exactly
0; and for a positive constant it tends to 1 as the cops-to-actives
ratio grows. -/
theorem C5_arrest_probability (k swr : ℝ) (nb d1 d2 : List AgentView)
    (hk : 0 ≤ k) (hswr : 0 ≤ swr) :
    (updateNetworkArrestProbability k swr nb d1 d2).arrestProbability
        = 1 - Real.exp (-(k * (⌊(countCops nb : ℝ) /
            (updateNetworkArrestProbability k swr nb d1 d2).activesInVision⌋ : ℤ)))
    ∧ (updateEstimatedArrestProbability k nb).2
        = 1 - Real.exp (-(k * (⌊(countCops nb : ℝ) /
            (updateEstimatedArrestProbability k nb).1⌋ : ℤ)))
    ∧ 0 ≤ (updateNetworkArrestProbability k swr nb d1 d2).arrestProbability
    ∧ (updateNetworkArrestProbability k swr nb d1 d2).arrestProbability ≤ 1
    ∧ 0 ≤ (updateEstimatedArrestProbability k nb).2
    ∧ (updateEstimatedArrestProbability k nb).2 ≤ 1
    ∧ (countCops nb = 0 →
        (updateNetworkArrestProbability k swr nb d1 d2).arrestProbability = 0
        ∧ (updateEstimatedArrestProbability k nb).2 = 0)
    ∧ (0 < k → Filter.Tendsto (fun n : ℕ => arrestProb k n 1)
        Filter.atTop (nhds 1)) := by
  refine ⟨?_, ?_, ?_, ?_, ?_, ?_, ?_, fun hkpos => arrestProb_tendsto_one hkpos⟩
  · rw [updateNetwork_prob_def, arrestProb_eq]
  · rw [updateEstimated_prob_def, arrestProb_eq]
  · rw [updateNetwork_prob_def]
    exact arrestProb_nonneg _ hk (updateNetwork_actives_ge_one hswr)
  · rw [updateNetwork_prob_def]
    exact arrestProb_le_one _ _ _
  · rw [updateEstimated_prob_def]
    exact arrestProb_nonneg _ hk (updateEstimated_actives_ge_one k nb)
  · rw [updateEstimated_prob_def]
    exact arrestProb_le_one _ _ _
  · intro hc
    rw [updateNetwork_prob_def, updateEstimated_prob_def, hc]
    exact ⟨arrestProb_cops_zero _ _, arrestProb_cops_zero _ _⟩

/-- C5 witness: at arrest constant 1 and strong-weak ratio 1 with no
neighbors and no ties, the network-mode arrest probability is
well-defined and nonnegative. -/
theorem C5_witness :
    (0 : ℝ) ≤ 1 ∧
      0 ≤ (updateNetworkArrestProbability 1 1 [] [] []).arrestProbability :=
  ⟨zero_le_one,
    (C5_arrest_probability 1 1 [] [] [] zero_le_one zero_le_one).2.2.1⟩

/-! ## C1: actives-in-vision accumulation in network mode -/

/-- The actives-in-vision value as the claim words it: 1 for the citizen
herself, 1 per non-jailed Active spatial neighbor, `strong_weak_ratio`
per non-jailed Active strong tie, and 1 per non-jailed Active weak tie,
where a weak tie is a two-hop ego node *other than the citizen itself*
and its one-hop neighbors.  Stated only for comparison with the code's
accumulation. -/
noncomputable def claimedActivesInVision (swr : ℝ) (G : Net) (uid : ℕ)
    (dict : List (ℕ × AgentView)) (nb : List AgentView) : ℝ :=
  1 + ((nb.filter activeFreeCitizenB).length : ℝ)
    + swr * (((getAgentsByIds dict (prepareEgo G uid).deg1).filter
        activeFreeB).length : ℝ)
    + (((getAgentsByIds dict ((prepareEgo G uid).deg2.filter
        fun x => decide (x ≠ uid))).filter activeFreeB).length : ℝ)

/-- C1 counterexample: a lone Active non-jailed citizen (id 0) with no
spatial neighbors and no network edges.  `prepare_ego` puts the citizen
itself into `degree_2_neighbors` (ego nodes minus one-hop neighbors),
`agent_dict` maps it back to itself, and the weak-tie loop counts it
again: the code computes actives-in-vision 2 where the claim's formula
(self never re-counted as a weak tie) gives 1. -/
theorem C1_counterexample :
    (updateNetworkArrestProbability 1 5 []
        (getAgentsByIds [(0, ⟨Breed.citizen, Condition.Active, 0, 0, 0⟩)]
          (prepareEgo [] 0).deg1)
        (getAgentsByIds [(0, ⟨Breed.citizen, Condition.Active, 0, 0, 0⟩)]
          (prepareEgo [] 0).deg2)).activesInVision
      ≠ claimedActivesInVision 5 [] 0
          [(0, ⟨Breed.citizen, Condition.Active, 0, 0, 0⟩)] [] := by
  rw [updateNetwork_actives_eq]
  unfold claimedActivesInVision
  norm_num
  decide

/-- C1 amended: in network mode the actives-in-vision value equals 1
(the citizen herself) plus 1 per non-jailed Active spatial citizen
neighbor, plus `strong_weak_ratio` per non-jailed Active strong tie,
plus 1 per non-jailed Active agent looked up from
`degree_2_neighbors = ego nodes − one-hop neighbors`; absent self-loops
that node set always retains the citizen's own id, and whenever
`agent_dict` resolves that id the citizen's own snapshot is among the
weak-tie agents — so an already-Active non-jailed citizen is counted a
second time as a weak tie. -/
theorem C1_amended (k swr : ℝ) (G : Net) (uid : ℕ)
    (dict : List (ℕ × AgentView)) (nb : List AgentView)
    (hG : ∀ e ∈ G, e.u ≠ e.v) :
    (updateNetworkArrestProbability k swr nb
        (getAgentsByIds dict (prepareEgo G uid).deg1)
        (getAgentsByIds dict (prepareEgo G uid).deg2)).activesInVision
      = 1 + ((nb.filter activeFreeCitizenB).length : ℝ)
          + swr * (((getAgentsByIds dict (prepareEgo G uid).deg1).filter
              activeFreeB).length : ℝ)
          + (((getAgentsByIds dict (prepareEgo G uid).deg2).filter
              activeFreeB).length : ℝ)
    ∧ uid ∈ (prepareEgo G uid).deg2
    ∧ (∀ pr : ℕ × AgentView, (dict.find? fun p => p.1 == uid) = some pr →
        pr.2 ∈ getAgentsByIds dict (prepareEgo G uid).deg2) := by
  refine ⟨updateNetwork_actives_eq k swr nb _ _, self_mem_deg2 hG, ?_⟩
  intro pr hfind
  unfold getAgentsByIds
  rw [List.mem_filterMap]
  exact ⟨uid, self_mem_deg2 hG, by rw [hfind]; rfl⟩

/-- C1 witness: on the single-edge network 0–1 (no self-loops) the
citizen's own id 0 lands in its `degree_2_neighbors`. -/
theorem C1_witness :
    (∀ e ∈ ([⟨0, 1, 0⟩] : Net), e.u ≠ e.v)
      ∧ (0 : ℕ) ∈ (prepareEgo [⟨0, 1, 0⟩] 0).deg2 :=
  ⟨by decide, (C1_amended 1 5 [⟨0, 1, 0⟩] 0 [] [] (by decide)).2.1⟩

/-! ## C7: the reported mean jail term -/

/-- C7 counterexample: one citizen is jailed with sentence 5 during a
tick in which nobody was jailed before (stored `jail_count` still 0, as
after `__init__` or any jail-free tick).  The data collector runs before
`jail_count` is refreshed (`model.py` lines 200 vs 204), so the tick's
reported mean jail term is 0 while the claim's value — sum of current
sentences over currently jailed citizens — is 5. -/
theorem C7_counterexample :
    reportedAverageJailTerm [⟨Breed.citizen, Condition.Quiescent, 5, 0, 0⟩]
        [⟨Breed.citizen, Condition.Quiescent, 0, 0, 0⟩]
      ≠ claimedMeanJailTerm [⟨Breed.citizen, Condition.Quiescent, 5, 0, 0⟩] := by
  have h1 : reportedAverageJailTerm
      [⟨Breed.citizen, Condition.Quiescent, 5, 0, 0⟩]
      [⟨Breed.citizen, Condition.Quiescent, 0, 0, 0⟩] = 0 := rfl
  have h2 : claimedMeanJailTerm
      [⟨Breed.citizen, Condition.Quiescent, 5, 0, 0⟩] = 5 := by
    unfold claimedMeanJailTerm count_jailed totalJailTerm
    norm_num
  rw [h1, h2]
  norm_num

/-- C7 amended: `get_average_jail_term` divides the total of the current
jail sentences by the *stored* `jail_count` — the jailed count at the end
of the previous tick — returning 0 when that stored count is 0; it
agrees with the claim's mean (current total over current count, 0 when
none jailed) exactly when the stored count matches the current one.  The
guard on the stored count means no division-by-zero error is ever
raised. -/
theorem C7_amended (agentsNow agentsPrev : List AgentView) :
    (count_jailed agentsPrev = 0 →
      reportedAverageJailTerm agentsNow agentsPrev = 0)
    ∧ (count_jailed agentsPrev ≠ 0 →
        reportedAverageJailTerm agentsNow agentsPrev
          = (totalJailTerm agentsNow : ℚ) / (count_jailed agentsPrev : ℚ))
    ∧ (count_jailed agentsPrev = count_jailed agentsNow →
        reportedAverageJailTerm agentsNow agentsPrev
          = claimedMeanJailTerm agentsNow)
    ∧ (count_jailed agentsNow = 0 → claimedMeanJailTerm agentsNow = 0) := by
  unfold reportedAverageJailTerm get_average_jail_term claimedMeanJailTerm
  refine ⟨fun h => by rw [if_pos h], fun h => by rw [if_neg h],
    fun h => by rw [h], fun h => by rw [if_pos h]⟩

/-- C7 witness: when the stored count matches the live count (here one
citizen jailed for 6 ticks on both sides) the reported value is the
claimed mean. -/
theorem C7_witness :
    count_jailed [⟨Breed.citizen, Condition.Quiescent, 6, 0, 0⟩]
        = count_jailed [⟨Breed.citizen, Condition.Quiescent, 6, 0, 0⟩]
      ∧ reportedAverageJailTerm [⟨Breed.citizen, Condition.Quiescent, 6, 0, 0⟩]
          [⟨Breed.citizen, Condition.Quiescent, 6, 0, 0⟩]
        = claimedMeanJailTerm [⟨Breed.citizen, Condition.Quiescent, 6, 0, 0⟩] :=
  ⟨rfl, (C7_amended [⟨Breed.citizen, Condition.Quiescent, 6, 0, 0⟩]
    [⟨Breed.citizen, Condition.Quiescent, 6, 0, 0⟩]).2.2.1 rfl⟩

/-! ## Helper lemma: the network-mode citizen step, spelled out -/

theorem citizen_step_swn (k swr : ℝ) (mv : Bool) (G : Net)
    (dict : List (ℕ × AgentView)) (nb : List AgentView)
    (emp : List (ℕ × ℕ)) (mc : ℕ) (s : CitizenState)
    (h0 : s.jailSentence = 0) :
    Citizen.step ⟨k, swr, ActivationType.withSWN, mv⟩ G dict nb emp mc s
      = ({ s with
            condition :=
              if s.condition = Condition.Quiescent ∧
                  s.grievance - s.riskAversion *
                    (updateNetworkArrestProbability k swr nb
                      (getAgentsByIds dict (prepareEgo G s.uniqueId).deg1)
                      (getAgentsByIds dict (prepareEgo G s.uniqueId).deg2)).arrestProbability
                    > s.threshold
              then Condition.Active else s.condition
            pos := moveIfAble mv emp mc s.pos
            arrestProbability :=
              some (updateNetworkArrestProbability k swr nb
                (getAgentsByIds dict (prepareEgo G s.uniqueId).deg1)
                (getAgentsByIds dict (prepareEgo G s.uniqueId).deg2)).arrestProbability
            strongTiesReceived :=
              (updateNetworkArrestProbability k swr nb
                (getAgentsByIds dict (prepareEgo G s.uniqueId).deg1)
                (getAgentsByIds dict (prepareEgo G s.uniqueId).deg2)).strongTies
            weakTiesReceived :=
              (updateNetworkArrestProbability k swr nb
                (getAgentsByIds dict (prepareEgo G s.uniqueId).deg1)
                (getAgentsByIds dict (prepareEgo G s.uniqueId).deg2)).weakTies },
         if s.condition = Condition.Active then
           pendingOf (prepareEgo G s.uniqueId).net s.uniqueId
         else []) := by
  unfold Citizen.step
  rw [if_neg (by simp [h0])]

theorem citizen_step_swn_pending (k swr : ℝ) (mv : Bool) (G : Net)
    (dict : List (ℕ × AgentView)) (nb : List AgentView)
    (emp : List (ℕ × ℕ)) (mc : ℕ) (s : CitizenState)
    (h0 : s.jailSentence = 0) :
    (Citizen.step ⟨k, swr, ActivationType.withSWN, mv⟩ G dict nb emp mc s).2
      = if s.condition = Condition.Active then
          pendingOf (prepareEgo G s.uniqueId).net s.uniqueId
        else [] := by
  rw [citizen_step_swn k swr mv G dict nb emp mc s h0]

theorem citizen_step_swn_condition (k swr : ℝ) (mv : Bool) (G : Net)
    (dict : List (ℕ × AgentView)) (nb : List AgentView)
    (emp : List (ℕ × ℕ)) (mc : ℕ) (s : CitizenState)
    (h0 : s.jailSentence = 0) :
    (Citizen.step ⟨k, swr, ActivationType.withSWN, mv⟩ G dict nb emp mc s).1.condition
      = if s.condition = Condition.Quiescent ∧
            s.grievance - s.riskAversion *
              (updateNetworkArrestProbability k swr nb
                (getAgentsByIds dict (prepareEgo G s.uniqueId).deg1)
                (getAgentsByIds dict (prepareEgo G s.uniqueId).deg2)).arrestProbability
              > s.threshold
        then Condition.Active else s.condition := by
  rw [citizen_step_swn k swr mv G dict nb emp mc s h0]

theorem citizen_step_swn_arrestProbability (k swr : ℝ) (mv : Bool) (G : Net)
    (dict : List (ℕ × AgentView)) (nb : List AgentView)
    (emp : List (ℕ × ℕ)) (mc : ℕ) (s : CitizenState)
    (h0 : s.jailSentence = 0) :
    (Citizen.step ⟨k, swr, ActivationType.withSWN, mv⟩ G dict nb emp mc s).1.arrestProbability
      = some (updateNetworkArrestProbability k swr nb
          (getAgentsByIds dict (prepareEgo G s.uniqueId).deg1)
          (getAgentsByIds dict (prepareEgo G s.uniqueId).deg2)).arrestProbability := by
  rw [citizen_step_swn k swr mv G dict nb emp mc s h0]

/-! ## C4: which citizens feed the pending-censorship set -/

/-- C4 counterexample: a Quiescent citizen (id 0, grievance 1, risk
aversion 0, threshold 0) with one incident non-censored edge 0–1.
During its activation it transitions to Active, but the
pending-censorship check (`agent.py` line 92) ran *before* the
transition (lines 99-101), so it contributes no edge this tick — the
claim's "including citizens that only became Active during this same
tick" fails: the pending set stays empty although (0,1) is a
non-censored incident edge of a citizen that is Active by the end of its
activation. -/
theorem C4_counterexample :
    (Citizen.step ⟨1, 5, ActivationType.withSWN, false⟩ [⟨0, 1, 0⟩]
        [(0, ⟨Breed.citizen, Condition.Quiescent, 0, 0, 0⟩),
          (1, ⟨Breed.citizen, Condition.Quiescent, 0, 0, 0⟩)] [] [] 0
        (Citizen.init 0 (0, 0) 1 0 0 0)).1.condition = Condition.Active
    ∧ (Citizen.step ⟨1, 5, ActivationType.withSWN, false⟩ [⟨0, 1, 0⟩]
        [(0, ⟨Breed.citizen, Condition.Quiescent, 0, 0, 0⟩),
          (1, ⟨Breed.citizen, Condition.Quiescent, 0, 0, 0⟩)] [] [] 0
        (Citizen.init 0 (0, 0) 1 0 0 0)).2 = [] := by
  constructor
  · rw [citizen_step_swn_condition 1 5 false _ _ _ _ _ _ rfl]
    rw [if_pos]
    refine ⟨rfl, ?_⟩
    norm_num [Citizen.init]
  · rw [citizen_step_swn_pending 1 5 false _ _ _ _ _ _ rfl]
    rw [if_neg]
    decide

/-- C4 amended: the pending-censorship contribution of a citizen's
activation is the canonicalised (min-id, max-id) edge set incident to it
in its pruned two-hop ego network exactly when the citizen was *already*
Active (and not jailed) at the start of its activation; a citizen that is
Quiescent at the start — even one that activates during this very tick —
and a jailed citizen contribute nothing until a later tick.  Every edge
in that ego network is non-censored. -/
theorem C4_amended (p : ModelParams) (G : Net) (dict : List (ℕ × AgentView))
    (nb : List AgentView) (emp : List (ℕ × ℕ)) (mc : ℕ) (s : CitizenState)
    (hA : p.activationType = ActivationType.withSWN) :
    (s.jailSentence = 0 → s.condition = Condition.Active →
      (Citizen.step p G dict nb emp mc s).2
        = pendingOf (prepareEgo G s.uniqueId).net s.uniqueId)
    ∧ (s.jailSentence = 0 → s.condition = Condition.Quiescent →
        (Citizen.step p G dict nb emp mc s).2 = [])
    ∧ (s.jailSentence ≠ 0 → (Citizen.step p G dict nb emp mc s).2 = [])
    ∧ (∀ e ∈ (prepareEgo G s.uniqueId).net, e.censorSteps = 0) := by
  obtain ⟨k, swr, a, mv⟩ := p
  change a = ActivationType.withSWN at hA
  subst hA
  refine ⟨?_, ?_, ?_, fun e he => (mem_prepareEgo_net he).2⟩
  · intro h0 hact
    rw [citizen_step_swn_pending k swr mv G dict nb emp mc s h0, if_pos hact]
  · intro h0 hq
    rw [citizen_step_swn_pending k swr mv G dict nb emp mc s h0, if_neg]
    rw [hq]
    intro hcon
    cases hcon
  · intro h
    unfold Citizen.step
    rw [if_pos h]

/-- C4 witness: an already-Active non-jailed citizen 0 on the single
edge 0–1 contributes exactly the canonical pending pair (0, 1). -/
theorem C4_witness :
    (Citizen.step ⟨1, 5, ActivationType.withSWN, false⟩ [⟨0, 1, 0⟩]
        [(0, ⟨Breed.citizen, Condition.Active, 0, 0, 0⟩),
          (1, ⟨Breed.citizen, Condition.Quiescent, 0, 0, 0⟩)] [] [] 0
        { Citizen.init 0 (0, 0) 1 0 0 0 with condition := Condition.Active }).2
      = [(0, 1)] := by
  rw [(C4_amended ⟨1, 5, ActivationType.withSWN, false⟩ [⟨0, 1, 0⟩]
      [(0, ⟨Breed.citizen, Condition.Active, 0, 0, 0⟩),
        (1, ⟨Breed.citizen, Condition.Quiescent, 0, 0, 0⟩)] [] [] 0
      { Citizen.init 0 (0, 0) 1 0 0 0 with condition := Condition.Active }
      rfl).1 rfl rfl]
  decide

/-! ## C6: jailed citizens -/

theorem tickJail_le (m : ℕ) : tickJail m ≤ m := by
  unfold tickJail
  split <;> omega

theorem tickJail_iterate_antitone : ∀ (n : ℕ) (j : ℕ),
    tickJail^[n + 1] j ≤ tickJail^[n] j := by
  intro n
  induction n with
  | zero => intro j; simpa using tickJail_le j
  | succ n ih =>
      intro j
      rw [Function.iterate_succ_apply, Function.iterate_succ_apply]
      exact ih (tickJail j)

theorem citizen_step_jail_bridge (p : ModelParams) (G : Net)
    (dict : List (ℕ × AgentView)) (nb : List AgentView)
    (emp : List (ℕ × ℕ)) (mc : ℕ) (s : CitizenState) :
    (Citizen.step p G dict nb emp mc s).1.jailSentence
      = tickJail s.jailSentence := by
  unfold Citizen.step tickJail
  by_cases h : s.jailSentence ≠ 0
  · simp [h]
  · rw [if_neg h, if_neg h]
    cases p.activationType <;> rfl

/-- C6: a citizen whose jail countdown is positive at the start of its
activation keeps its condition and grid position, emits no pending
edges, and exits the tick with its countdown decremented by exactly 1.
A cop's arrest candidates are exactly non-jailed Active citizens, so
neither before its activation (countdown still positive) nor after
(condition unchanged — and arrest leaves the arrestee Quiescent, so a
jailed citizen is Quiescent throughout) can a cop arrest it that tick.
Absent an arrest the countdown evolves by `tickJail` every tick, which
is monotonically non-increasing under iteration and decrements by
exactly 1 while positive. -/
theorem C6_jailed_invariants (p : ModelParams) (G : Net)
    (dict : List (ℕ × AgentView)) (nb : List AgentView)
    (emp : List (ℕ × ℕ)) (mc : ℕ) (s : CitizenState)
    (h : s.jailSentence ≠ 0) :
    ((Citizen.step p G dict nb emp mc s).1.condition = s.condition
      ∧ (Citizen.step p G dict nb emp mc s).1.pos = s.pos
      ∧ (Citizen.step p G dict nb emp mc s).1.jailSentence = s.jailSentence - 1
      ∧ (Citizen.step p G dict nb emp mc s).2 = [])
    ∧ (∀ (nb' : List AgentView) (a : AgentView), a ∈ activeNeighborsOf nb' →
        a.breed = Breed.citizen ∧ a.condition = Condition.Active
          ∧ a.jailSentence = 0)
    ∧ (∀ (mv : Bool) (nb' : List AgentView) (emp' : List (ℕ × ℕ))
        (ch se mc' : ℕ) (pos : ℕ × ℕ) (a : AgentView),
        (Cop.step mv nb' emp' ch se mc' pos).1 = some a →
        a.condition = Condition.Quiescent ∧ a.jailSentence = se)
    ∧ (∀ s' : CitizenState,
        (Citizen.step p G dict nb emp mc s').1.jailSentence
          = tickJail s'.jailSentence)
    ∧ (∀ (n j : ℕ), tickJail^[n + 1] j ≤ tickJail^[n] j)
    ∧ (∀ j : ℕ, j ≠ 0 → tickJail j = j - 1) := by
  refine ⟨?_, ?_, ?_, fun s' => citizen_step_jail_bridge p G dict nb emp mc s',
    tickJail_iterate_antitone, fun j hj => by unfold tickJail; rw [if_pos hj]⟩
  · unfold Citizen.step
    rw [if_pos h]
    exact ⟨rfl, rfl, rfl, rfl⟩
  · intro nb' a ha
    rw [activeNeighborsOf, List.mem_filter] at ha
    have hb := ha.2
    simp only [activeFreeCitizenB, Bool.and_eq_true, decide_eq_true_eq] at hb
    exact ⟨hb.1.1, hb.1.2, hb.2⟩
  · intro mv nb' emp' ch se mc' pos a ha
    unfold Cop.step at ha
    simp only at ha
    rw [Option.map_eq_some'] at ha
    obtain ⟨b, _, hb⟩ := ha
    rw [← hb]
    exact ⟨rfl, rfl⟩

/-- C6 witness: a citizen jailed for 5 ticks steps to countdown 4 with
no pending contribution. -/
theorem C6_witness :
    ({ Citizen.init 0 (0, 0) 1 0 1 0 with jailSentence := 5 }
        : CitizenState).jailSentence ≠ 0
    ∧ (Citizen.step ⟨1, 5, ActivationType.withSWN, true⟩ [] [] [] [] 0
        { Citizen.init 0 (0, 0) 1 0 1 0 with jailSentence := 5 }).2 = [] :=
  ⟨by decide,
    ((C6_jailed_invariants ⟨1, 5, ActivationType.withSWN, true⟩ [] [] [] [] 0
      { Citizen.init 0 (0, 0) 1 0 1 0 with jailSentence := 5 }
      (by decide)).1).2.2.2⟩

/-! ## C9: the one-citizen no-cop scenario -/

/-- C9 counterexample: the claimed configuration (exactly one citizen)
does not even construct: the influence network is built unconditionally
with the default `lattice_neighbor = 4` (`model.py` lines 62 and
164-168), and `watts_strogatz_graph(1, 4, p)` rejects `k > n`, so
construction raises instead of succeeding as the claim requires. -/
theorem C9_counterexample :
    modelBuildsGraph ActivationType.withSWN 1 4 = false := by
  decide

/-- C9 amended: with `lattice_neighbor` lowered to 0 (≤ the single
citizen) construction passes the generator, and the first activation of
the lone citizen — hardship 1, legitimacy 0 (grievance 1), threshold 0,
no cops anywhere in vision — makes it Active with arrest probability
exactly 0. -/
theorem C9_amended :
    modelBuildsGraph ActivationType.withSWN 1 0 = true
    ∧ (Citizen.step ⟨2.3, 5, ActivationType.withSWN, true⟩ []
        [(0, ⟨Breed.citizen, Condition.Quiescent, 0, 0, 0⟩)] [] [] 0
        (Citizen.init 0 (0, 0) 1 0 1 0)).1.condition = Condition.Active
    ∧ (Citizen.step ⟨2.3, 5, ActivationType.withSWN, true⟩ []
        [(0, ⟨Breed.citizen, Condition.Quiescent, 0, 0, 0⟩)] [] [] 0
        (Citizen.init 0 (0, 0) 1 0 1 0)).1.arrestProbability = some 0 := by
  have hu : (Citizen.init 0 (0, 0) 1 0 1 0).uniqueId = 0 := rfl
  have hp : (updateNetworkArrestProbability 2.3 5 []
      (getAgentsByIds [(0, ⟨Breed.citizen, Condition.Quiescent, 0, 0, 0⟩)]
        (prepareEgo [] 0).deg1)
      (getAgentsByIds [(0, ⟨Breed.citizen, Condition.Quiescent, 0, 0, 0⟩)]
        (prepareEgo [] 0).deg2)).arrestProbability = 0 := by
    rw [updateNetwork_prob_def]
    have hc : countCops [] = 0 := rfl
    rw [hc, arrestProb_cops_zero]
  refine ⟨by decide, ?_, ?_⟩
  · rw [citizen_step_swn_condition 2.3 5 true _ _ _ _ _ _ rfl, hu, hp]
    rw [if_pos]
    refine ⟨rfl, ?_⟩
    norm_num [Citizen.init]
  · rw [citizen_step_swn_arrestProbability 2.3 5 true _ _ _ _ _ _ rfl, hu, hp]

end EpsteinCV
